import Mathlib

/-!
Shallow embedding of the time/calendar core of `src/core/utctime_utilities.h`
(namespace `shyft::core`).  Instants (`utctime`) and spans (`utctimespan`)
are signed 64-bit microsecond counts; we model them as `Int` and make the
two's-complement wraparound explicit (`wrap64`) exactly where the C++ code
relies on it (the sentinel constants).  Fallible C++ code (throwing, or an
out-of-range `std::vector` access, which is undefined behaviour) is modelled
with `Option`: `none` means the operation does not return normally.
-/

namespace Shyft

/-- Smallest value of a signed 64-bit integer (`utctime::min()`). -/
def int64_min : Int := -(2 ^ 63)

/-- Largest value of a signed 64-bit integer (`utctime::max()`). -/
def int64_max : Int := 2 ^ 63 - 1

/-- The value `x` holds when stored in a signed 64-bit integer:
two's-complement wraparound modulo 2^64, recentred on `[-2^63, 2^63)`. -/
def wrap64 (x : Int) : Int := (x + 2 ^ 63) % 2 ^ 64 - 2 ^ 63

/-- `x` is representable as a signed 64-bit integer. -/
def in_int64 (x : Int) : Prop := int64_min ≤ x ∧ x ≤ int64_max

instance (x : Int) : Decidable (in_int64 x) := by unfold in_int64; infer_instance

/-- `const utctime max_utctime = utctime::max()`. -/
def max_utctime : Int := int64_max

/-- `const utctime min_utctime = utctime(- utctime::min().time_since_epoch())`:
the negation of the smallest 64-bit value, as stored back into a 64-bit
integer (two's-complement wraparound). -/
def min_utctime : Int := wrap64 (-int64_min)

/-- `const utctime no_utctime = utctime::min()`. -/
def no_utctime : Int := int64_min

/-- `inline bool is_valid(utctime t) {return t != no_utctime;}` -/
def is_valid (t : Int) : Bool := t != no_utctime

/-- The result of an int64 arithmetic operation: the mathematical value
when it is representable, otherwise `none` (signed overflow is undefined
behaviour in C++). -/
def int64_checked (x : Int) : Option Int :=
  if in_int64 x then some x else none

/-- `floor(utctime t, utctimespan dt)` from the header.  The C++ test
`0 < (num^den)` (bitwise xor of the two int64 values) holds exactly when
`num` and `den` have the same sign bit and `num ≠ den`; we write that
condition arithmetically.  `lldiv` and int64 `/` truncate toward zero,
i.e. `Int.tdiv`/`Int.tmod`.  Every int64 operation on the way to the
result (the division, the decrement of `r.quot`, and the final product)
goes through `int64_checked`, so `none` models a computation that runs
into signed overflow (e.g. `den*(r.quot - 1)` below `int64_min`). -/
def floor (t dt : Int) : Option Int :=
  if dt = 0 then some t
  else if ((t < 0) ↔ (dt < 0)) ∧ t ≠ dt then
    (int64_checked (t.tdiv dt)).bind fun q => int64_checked (dt * q)
  else if t.tmod dt ≠ 0 then
    (int64_checked (t.tdiv dt)).bind fun q =>
      (int64_checked (q - 1)).bind fun q1 => int64_checked (dt * q1)
  else
    (int64_checked (t.tdiv dt)).bind fun q => int64_checked (dt * q)

/-- `struct utcperiod`: a pair of instants. (`end` is a Lean keyword, hence
the field name `end_`.) -/
structure utcperiod where
  start : Int
  end_ : Int
deriving DecidableEq

/-- Default constructor `utcperiod(): start(no_utctime), end(no_utctime)`. -/
def utcperiod.default_ : utcperiod := ⟨no_utctime, no_utctime⟩

/-- `valid(): start != no_utctime && end != no_utctime && start <= end`. -/
def utcperiod.valid (p : utcperiod) : Bool :=
  p.start != no_utctime && p.end_ != no_utctime && decide (p.start ≤ p.end_)

/-- `contains(utctime t): is_valid(t)&&valid()? t>=start && t<end : false`. -/
def utcperiod.contains (p : utcperiod) (t : Int) : Bool :=
  if is_valid t && p.valid then decide (t ≥ p.start) && decide (t < p.end_) else false

/-- `overlaps(p): ((p.start >= end) || (p.end <= start)) ? false : true`. -/
def utcperiod.overlaps (a p : utcperiod) : Bool :=
  if decide (p.start ≥ a.end_) || decide (p.end_ ≤ a.start) then false else true

/-- `intersection(a,b)`: with `t0 = max(a.start, b.start)` and
`t1 = min(a.end, b.end)`, return `utcperiod(t0, t1)` when `t0 <= t1`,
otherwise the default (marker) period. -/
def intersection (a b : utcperiod) : utcperiod :=
  if max a.start b.start ≤ min a.end_ b.end_ then
    ⟨max a.start b.start, min a.end_ b.end_⟩
  else utcperiod.default_

/-- `struct YMDhms`: civil calendar coordinates. -/
structure YMDhms where
  year : Int
  month : Int
  day : Int
  hour : Int
  minute : Int
  second : Int
deriving DecidableEq

def YMDhms.YEAR_MAX : Int := 9999
def YMDhms.YEAR_MIN : Int := -9999

/-- `is_null()`: all six fields zero. -/
def YMDhms.is_null (c : YMDhms) : Bool :=
  c.year == 0 && c.month == 0 && c.day == 0 && c.hour == 0 && c.minute == 0 && c.second == 0

/-- `is_valid_coordinates()`, the negated-disjunction range check from the
header, transcribed literally. -/
def YMDhms.is_valid_coordinates (c : YMDhms) : Bool :=
  !(decide (c.year < YMDhms.YEAR_MIN) || decide (c.year > YMDhms.YEAR_MAX) ||
    decide (c.month < 1) || decide (c.month > 12) ||
    decide (c.day < 1) || decide (c.day > 31) ||
    decide (c.hour < 0) || decide (c.hour > 23) ||
    decide (c.minute < 0) || decide (c.minute > 59) ||
    decide (c.second < 0) || decide (c.second > 59))

/-- `is_valid()`: a null value or in-range coordinates. -/
def YMDhms.is_valid (c : YMDhms) : Bool := c.is_null || c.is_valid_coordinates

/-- The checking constructor `YMDhms(Y,M,D,h,m,s)`: stores the fields and
throws (`none`) when `is_valid()` fails. -/
def YMDhms.make (Y M D h m s : Int) : Option YMDhms :=
  if (YMDhms.mk Y M D h m s).is_valid then some (YMDhms.mk Y M D h m s) else none

/-- `struct YWdhms`: ISO-week calendar coordinates. -/
structure YWdhms where
  iso_year : Int
  iso_week : Int
  week_day : Int
  hour : Int
  minute : Int
  second : Int
deriving DecidableEq

/-- `is_null()`: all six fields zero. -/
def YWdhms.is_null (c : YWdhms) : Bool :=
  c.iso_year == 0 && c.iso_week == 0 && c.week_day == 0 && c.hour == 0 &&
    c.minute == 0 && c.second == 0

/-- `is_valid_coordinates()` for ISO-week coordinates, transcribed literally. -/
def YWdhms.is_valid_coordinates (c : YWdhms) : Bool :=
  !(decide (c.iso_year < YMDhms.YEAR_MIN) || decide (c.iso_year > YMDhms.YEAR_MAX) ||
    decide (c.iso_week < 1) || decide (c.iso_week > 53) ||
    decide (c.week_day < 1) || decide (c.week_day > 7) ||
    decide (c.hour < 0) || decide (c.hour > 23) ||
    decide (c.minute < 0) || decide (c.minute > 59) ||
    decide (c.second < 0) || decide (c.second > 59))

/-- `is_valid()`: a null value or in-range coordinates. -/
def YWdhms.is_valid (c : YWdhms) : Bool := c.is_null || c.is_valid_coordinates

/-- The checking constructor `YWdhms(iso_year, iso_week, week_day, h, m, s)`:
stores the fields and throws (`none`) when `is_valid()` fails. -/
def YWdhms.make (Y W wd h m s : Int) : Option YWdhms :=
  if (YWdhms.mk Y W wd h m s).is_valid then some (YWdhms.mk Y W wd h m s) else none

/-! ## Day-number kernel -/

/-- Modelled from the spec: the constant `calendar::UnixDay` (declared in the
header, defined outside `src/`) is the Gregorian serial day number of
1970-01-01, `2440588`. -/
def UnixDay : Int := 2440588

/-- Modelled from the spec: the constant `calendar::UnixSecond` (declared in
the header, defined outside `src/`) equals `UnixDay * 86400`. -/
def UnixSecond : Int := 210866803200

/-- Modelled from the spec: `calendar::from_day_number(unsigned long)`
(declared in the header, defined outside `src/`; "snapped from boost
gregorian_calendar.ipp") is the standard Gregorian serial-day inversion on
nonnegative day numbers, with truncating (here: natural-number) division. -/
def from_day_number (dayNumber : Nat) : YMDhms :=
  let a := dayNumber + 32044
  let b := (4 * a + 3) / 146097
  let c := a - (146097 * b) / 4
  let d := (4 * c + 3) / 1461
  let e := c - (1461 * d) / 4
  let m := (5 * e + 2) / 153
  let day := e - (153 * m + 2) / 5 + 1
  let month := m + 3 - 12 * (m / 10)
  let year : Int := (b : Int) * 100 + (d : Int) - 4800 + ((m : Int) / 10)
  ⟨year, month, day, 0, 0, 0⟩

/-- `calendar::day_number(utctime t)`: microseconds are cast down to whole
seconds by `duration_cast` (truncation toward zero), then the int64 division
by 86400 seconds also truncates toward zero. -/
def day_number (t : Int) : Int :=
  (UnixSecond + t.tdiv 1000000).tdiv 86400

/-- `calendar::utc_year(utctime t)`: throws (`none`) on `no_utctime`; maps
`max_utctime`/`min_utctime` to the extreme years; otherwise decomposes the
day number (converted to `unsigned long`, i.e. modulo 2^64). -/
def utc_year (t : Int) : Option Int :=
  if t = no_utctime then none
  else if t = max_utctime then some YMDhms.YEAR_MAX
  else if t = min_utctime then some YMDhms.YEAR_MIN
  else some (from_day_number ((day_number t) % 2 ^ 64).toNat).year

/-! ## tz_table -/

/-- `std::vector` indexing `v[i]` with a (signed) index: `none` models an
out-of-range access, which is undefined behaviour in C++. -/
def vecGet {α : Type} (l : List α) (i : Int) : Option α :=
  if 0 ≤ i then l.get? i.toNat else none

/-- `struct tz_table`: per-year DST table. -/
structure tz_table where
  start_year : Int
  tz_name : String
  dst : List utcperiod
  dt : List Int

/-- printf `"%+02d"` applied to an int: mandatory sign, then the decimal
digits of the magnitude, zero-padded (after the sign) to a total field
width of 2.  Since sign plus digits is already at least 2 characters, the
padding is always empty. -/
def fmt_plus02d (n : Int) : String :=
  let sign := if n < 0 then "-" else "+"
  let digits := toString n.natAbs
  let pad := String.mk (List.replicate (2 - (sign.length + digits.length)) '0')
  sign ++ pad ++ digits

/-- The fixed-offset constructor `tz_table(utctimespan dt)`:
`start_year = 0`, name via `sprintf(s,"UTC%+02d",int(dt/deltahours(1)))`
(chrono duration division truncates toward zero), empty tables. -/
def tz_table.of_fixed (dt : Int) : tz_table :=
  ⟨0, "UTC" ++ fmt_plus02d (dt.tdiv 3600000000), [], []⟩

/-- The default constructor `tz_table()`. -/
def tz_table.default_ : tz_table := ⟨0, "UTC+00", [], []⟩

/-- `is_dst(): dst.size() > 0`. -/
def tz_table.is_dst (tbl : tz_table) : Bool := tbl.dst.length > 0

/-- `name()`. -/
def tz_table.name (tbl : tz_table) : String := tbl.tz_name

/-- `dst_start(year): is_dst() ? dst[year-start_year].start : no_utctime`.
`none` models the vector access being out of range. -/
def tz_table.dst_start (tbl : tz_table) (year : Int) : Option Int :=
  if tbl.is_dst then (vecGet tbl.dst (year - tbl.start_year)).map utcperiod.start
  else some no_utctime

/-- `dst_end(year): is_dst() ? dst[year-start_year].end : no_utctime`. -/
def tz_table.dst_end (tbl : tz_table) (year : Int) : Option Int :=
  if tbl.is_dst then (vecGet tbl.dst (year - tbl.start_year)).map utcperiod.end_
  else some no_utctime

/-- `tz_table::dst_offset(utctime t)` from the bottom of the header:
no table means offset 0; a year at or past the end of the table means 0;
otherwise look up the period and the offset for the year (a year before
`start_year` makes these lookups out of range, `none`) and test membership,
with the wrapped (southern-hemisphere) case when `s >= e`. -/
def tz_table.dst_offset (tbl : tz_table) (t : Int) : Option Int :=
  if !tbl.is_dst then some 0
  else
    match utc_year t with
    | none => none
    | some year =>
      if year - tbl.start_year ≥ (tbl.dst.length : Int) then some 0
      else
        match tbl.dst_start year, tbl.dst_end year,
              vecGet tbl.dt (year - tbl.start_year) with
        | some s, some e, some off =>
          some (if (if s < e then decide (t ≥ s) && decide (t < e)
                    else decide (t < e) || decide (t ≥ s)) then off else 0)
        | _, _, _ => none

/-! ## Claim-side definitions (from the spec wording, for comparison) -/

/-- The spec's day-number formula: seconds obtained by rounding toward
negative infinity, then a floor division by 86400. -/
def day_number_spec_formula (t : Int) : Int :=
  (UnixSecond + t.fdiv 1000000).fdiv 86400

/-- The documented coordinate ranges for `YMDhms` as intervals. -/
def ymd_documented_ranges (Y M D h m s : Int) : Prop :=
  (-9999 ≤ Y ∧ Y ≤ 9999) ∧ (1 ≤ M ∧ M ≤ 12) ∧ (1 ≤ D ∧ D ≤ 31) ∧
  (0 ≤ h ∧ h ≤ 23) ∧ (0 ≤ m ∧ m ≤ 59) ∧ (0 ≤ s ∧ s ≤ 59)

/-- The documented coordinate ranges for `YWdhms` as intervals. -/
def ywd_documented_ranges (Y W wd h m s : Int) : Prop :=
  (-9999 ≤ Y ∧ Y ≤ 9999) ∧ (1 ≤ W ∧ W ≤ 53) ∧ (1 ≤ wd ∧ wd ≤ 7) ∧
  (0 ≤ h ∧ h ≤ 23) ∧ (0 ≤ m ∧ m ≤ 59) ∧ (0 ≤ s ∧ s ≤ 59)

/-- A one-entry DST table starting at 1905, as built from any rule provider
with `n_years = 1`; used to exercise `dst_offset` below the table range. -/
def tbl1905 : tz_table := ⟨1905, "Test", [⟨0, 31536000000000⟩], [3600000000]⟩

/-- 1900-01-01T00:00:00Z in microseconds: an instant whose civil year lies
strictly before `tbl1905.start_year`. -/
def t1900 : Int := -2208988800000000

/-! ## Helper lemmas -/

theorem tmod_neg_left (a b : Int) : (-a).tmod b = -(a.tmod b) := by
  rw [Int.tmod_def, Int.tmod_def, Int.neg_tdiv]; ring

theorem tmod_self_eq_zero (a : Int) : a.tmod a = 0 := by
  rcases eq_or_ne a 0 with rfl | h
  · simp
  · rw [Int.tmod_def, Int.tdiv_self h]; ring

/-! ## Claims -/

theorem int64_checked_eq_some {x r : Int} :
    int64_checked x = some r ↔ in_int64 x ∧ r = x := by
  unfold int64_checked
  split_ifs with h <;> simp [h, eq_comm]

theorem int64_checked_some_of {x : Int} (h : in_int64 x) :
    int64_checked x = some x := by
  rw [int64_checked, if_pos h]

/-- Soundness of `floor`: whenever the int64 computation completes, the
result is the greatest multiple of `dt` not exceeding `t`. -/
theorem floor_some_bounds {t dt r : Int} (hdt : 0 < dt)
    (hr : floor t dt = some r) : r ≤ t ∧ t < r + dt ∧ dt ∣ r := by
  have hne : dt ≠ 0 := ne_of_gt hdt
  rw [floor, if_neg hne] at hr
  by_cases hsame : ((t < 0) ↔ (dt < 0)) ∧ t ≠ dt
  · rw [if_pos hsame] at hr
    obtain ⟨q, hq, hr2⟩ := Option.bind_eq_some.mp hr
    obtain ⟨-, hqx⟩ := int64_checked_eq_some.mp hq
    obtain ⟨-, hrx⟩ := int64_checked_eq_some.mp hr2
    subst hqx; subst hrx
    have ht : 0 ≤ t := by rcases hsame with ⟨hiff, -⟩; omega
    rw [Int.tdiv_eq_ediv ht (le_of_lt hdt)]
    exact ⟨Int.mul_ediv_self_le hne, Int.lt_mul_ediv_self_add hdt, dvd_mul_right _ _⟩
  · rw [if_neg hsame] at hr
    by_cases hteq : t = dt
    · subst hteq
      rw [if_neg (by simp [tmod_self_eq_zero])] at hr
      obtain ⟨q, hq, hr2⟩ := Option.bind_eq_some.mp hr
      obtain ⟨-, hqx⟩ := int64_checked_eq_some.mp hq
      obtain ⟨-, hrx⟩ := int64_checked_eq_some.mp hr2
      subst hqx; subst hrx
      rw [Int.tdiv_self hne, mul_one]
      exact ⟨le_refl _, by omega, dvd_refl _⟩
    · have ht : t < 0 := by
        by_contra hge
        exact hsame ⟨by omega, hteq⟩
      have key : t.tmod dt = -((-t) % dt) := by
        have h1 : t.tmod dt = -((-t).tmod dt) := by
          rw [tmod_neg_left]; ring
        rw [h1, Int.tmod_eq_emod (by omega) (le_of_lt hdt)]
      have hm0 : 0 ≤ (-t) % dt := Int.emod_nonneg _ hne
      have hm1 : (-t) % dt < dt := Int.emod_lt_of_pos _ hdt
      have hdm : dt * t.tdiv dt + t.tmod dt = t := Int.tdiv_add_tmod t dt
      rw [key] at hdm
      by_cases hmz : t.tmod dt = 0
      · rw [if_neg (by simp [hmz])] at hr
        obtain ⟨q, hq, hr2⟩ := Option.bind_eq_some.mp hr
        obtain ⟨-, hqx⟩ := int64_checked_eq_some.mp hq
        obtain ⟨-, hrx⟩ := int64_checked_eq_some.mp hr2
        subst hqx; subst hrx
        rw [hmz] at key
        refine ⟨?_, ?_, dvd_mul_right _ _⟩ <;> omega
      · rw [if_pos hmz] at hr
        obtain ⟨q, hq, hr2⟩ := Option.bind_eq_some.mp hr
        obtain ⟨q1, hq1, hr3⟩ := Option.bind_eq_some.mp hr2
        obtain ⟨-, hqx⟩ := int64_checked_eq_some.mp hq
        obtain ⟨-, hq1x⟩ := int64_checked_eq_some.mp hq1
        obtain ⟨-, hrx⟩ := int64_checked_eq_some.mp hr3
        subst hqx; subst hq1x; subst hrx
        have hexp : dt * (t.tdiv dt - 1) = dt * t.tdiv dt - dt := by ring
        rw [hexp]
        have hmz' : (-t) % dt ≠ 0 := by
          intro h0; exact hmz (by omega)
        refine ⟨?_, ?_, ?_⟩
        · omega
        · omega
        · exact hexp ▸ dvd_mul_right dt (t.tdiv dt - 1)

/-- Completeness of `floor`: for representable `t` at least `dt - 1` above
`int64_min`, no intermediate int64 operation overflows and `floor`
returns a result. -/
theorem floor_isSome_of_le {t dt : Int} (hdt : 0 < dt) (ht64 : in_int64 t)
    (hlb : int64_min + (dt - 1) ≤ t) : (floor t dt).isSome = true := by
  have hne : dt ≠ 0 := ne_of_gt hdt
  rw [floor, if_neg hne]
  obtain ⟨htl, htu⟩ := ht64
  simp only [int64_min, int64_max] at htl htu hlb
  by_cases hsame : ((t < 0) ↔ (dt < 0)) ∧ t ≠ dt
  · rw [if_pos hsame]
    have ht : 0 ≤ t := by rcases hsame with ⟨hiff, -⟩; omega
    have hq0 : 0 ≤ t.tdiv dt := Int.tdiv_nonneg ht (le_of_lt hdt)
    have hqe : t.tdiv dt = t / dt := Int.tdiv_eq_ediv ht (le_of_lt hdt)
    have hM : dt * (t / dt) ≤ t := Int.mul_ediv_self_le hne
    have hqle : t / dt ≤ dt * (t / dt) :=
      le_mul_of_one_le_left (by omega) (by omega)
    have hq64 : in_int64 (t.tdiv dt) := by
      constructor <;> simp only [int64_min, int64_max] <;> omega
    have hM0 : 0 ≤ dt * (t / dt) := by positivity
    rw [int64_checked_some_of hq64, Option.some_bind,
      int64_checked_some_of (by constructor <;>
        simp only [int64_min, int64_max] <;> rw [hqe] <;> omega)]
    rfl
  · rw [if_neg hsame]
    by_cases hteq : t = dt
    · subst hteq
      rw [if_neg (by simp [tmod_self_eq_zero])]
      have hq64 : in_int64 (t.tdiv t) := by
        rw [Int.tdiv_self hne]
        constructor <;> simp only [int64_min, int64_max] <;> omega
      rw [int64_checked_some_of hq64, Option.some_bind,
        int64_checked_some_of (by
          rw [Int.tdiv_self hne, mul_one]
          constructor <;> simp only [int64_min, int64_max] <;> omega)]
      rfl
    · have ht : t < 0 := by
        by_contra hge
        exact hsame ⟨by omega, hteq⟩
      have key : t.tmod dt = -((-t) % dt) := by
        have h1 : t.tmod dt = -((-t).tmod dt) := by
          rw [tmod_neg_left]; ring
        rw [h1, Int.tmod_eq_emod (by omega) (le_of_lt hdt)]
      have hm0 : 0 ≤ (-t) % dt := Int.emod_nonneg _ hne
      have hm1 : (-t) % dt < dt := Int.emod_lt_of_pos _ hdt
      have hdm : dt * t.tdiv dt + t.tmod dt = t := Int.tdiv_add_tmod t dt
      rw [key] at hdm
      have hq0 : t.tdiv dt ≤ 0 := by
        have h1 : (-(-t)).tdiv dt = -((-t).tdiv dt) := Int.neg_tdiv (-t) dt
        rw [neg_neg] at h1
        have h2 : 0 ≤ (-t).tdiv dt := Int.tdiv_nonneg (by omega) (le_of_lt hdt)
        omega
      have hqge : dt * t.tdiv dt ≤ t.tdiv dt := by
        nlinarith [mul_nonneg (show (0:Int) ≤ dt - 1 by omega)
          (show (0:Int) ≤ -t.tdiv dt by omega)]
      have hq64 : in_int64 (t.tdiv dt) := by
        constructor <;> simp only [int64_min, int64_max] <;> omega
      by_cases hmz : t.tmod dt = 0
      · rw [if_neg (by simp [hmz])]
        rw [hmz] at key
        rw [int64_checked_some_of hq64, Option.some_bind,
          int64_checked_some_of (by constructor <;>
            simp only [int64_min, int64_max] <;> omega)]
        rfl
      · rw [if_pos hmz]
        have hmz' : (-t) % dt ≠ 0 := by
          intro h0; exact hmz (by omega)
        have hdt2 : 2 ≤ dt := by
          by_contra hlt
          have : dt = 1 := by omega
          subst this
          omega
        have hq1 : in_int64 (t.tdiv dt - 1) := by
          constructor <;> simp only [int64_min, int64_max] <;> omega
        have hexp : dt * (t.tdiv dt - 1) = dt * t.tdiv dt - dt := by ring
        rw [int64_checked_some_of hq64, Option.some_bind,
          int64_checked_some_of hq1, Option.some_bind,
          int64_checked_some_of (by
            rw [hexp]
            constructor <;> simp only [int64_min, int64_max] <;> omega)]
        rfl

/-- C3 (counterexample): `int64_min + 1` is a representable, non-sentinel
instant, yet with `dt` = 1 second the greatest multiple of `dt` not
exceeding it lies below `int64_min`, and the C++ product `den*(r.quot-1)`
is a signed overflow (undefined behaviour): the computation yields no
result at all, refuting the claim's unrestricted statement. -/
theorem floor_overflow_counterexample :
    in_int64 (int64_min + 1) ∧ int64_min + 1 ≠ no_utctime ∧
    floor (int64_min + 1) 1000000 = none ∧
    1000000 * ((int64_min + 1).fdiv 1000000) < int64_min := by
  refine ⟨by decide, by decide, by decide, by decide⟩

/-- C3 (amended): for every instant `t` and strictly positive span `dt`,
whenever the int64 computation of `floor` completes without signed
overflow it returns the greatest multiple of `dt` not exceeding `t`
(`r ≤ t < r + dt` with `dt ∣ r`); it does complete for every representable
`t` at least `dt - 1` above `int64_min` (only there is the greatest
multiple unrepresentable); for `dt = 0` the result is `t`; and the two
concrete values from scenario S3 hold. -/
theorem floor_greatest_multiple (t dt : Int) :
    (0 < dt → ∀ r : Int, floor t dt = some r → r ≤ t ∧ t < r + dt ∧ dt ∣ r) ∧
    (0 < dt → in_int64 t → int64_min + (dt - 1) ≤ t →
      (floor t dt).isSome = true) ∧
    floor t 0 = some t ∧
    floor (-1) 1000000 = some (-1000000) ∧
    floor (-1000000) 1000000 = some (-1000000) :=
  ⟨fun hdt r hr => floor_some_bounds hdt hr,
   fun hdt h64 hlb => floor_isSome_of_le hdt h64 hlb,
   by simp [floor], by decide, by decide⟩

/-- Closed witness for `floor_greatest_multiple` at `t = -1`, `dt = 10^6`,
exercising both the soundness and the completeness hypotheses. -/
theorem floor_greatest_multiple_witness :
    ((0 : Int) < 1000000 ∧ floor (-1) 1000000 = some (-1000000) ∧
      ((-1000000 : Int) ≤ -1 ∧ (-1 : Int) < -1000000 + 1000000 ∧
        (1000000 : Int) ∣ -1000000)) ∧
    (in_int64 (-1) ∧ int64_min + (1000000 - 1) ≤ -1 ∧
      (floor (-1) 1000000).isSome = true) :=
  ⟨⟨by decide, by decide,
      (floor_greatest_multiple (-1) 1000000).1 (by decide) (-1000000) (by decide)⟩,
   ⟨by decide, by decide,
      (floor_greatest_multiple (-1) 1000000).2.1 (by decide) (by decide) (by decide)⟩⟩

/-- C2 (counterexample): at `t = -1` microsecond, `day_number` as coded
(truncating `duration_cast`, truncating int64 division) yields `2440588`,
while the claimed formula with seconds rounded toward negative infinity
yields `2440587`.  The claim fails at this input. -/
theorem day_number_neg_instant_counterexample :
    day_number (-1) = 2440588 ∧ day_number_spec_formula (-1) = 2440587 ∧
    day_number (-1) ≠ day_number_spec_formula (-1) := by
  refine ⟨by decide, by decide, by decide⟩

/-- C2 (amended): `duration_cast` truncates toward zero, so
`seconds_of(t) = tdiv t 10^6`; the outer int64 division also truncates
toward zero, which agrees with the floor whenever the numerator
`UnixSecond + seconds_of(t)` is nonnegative (true for all instants at or
after the Julian epoch, in particular for every `t ≥ 0` and for
`t = -1` microsecond). -/
theorem day_number_trunc_formula (t : Int)
    (h : 0 ≤ UnixSecond + t.tdiv 1000000) :
    day_number t = (UnixSecond + t.tdiv 1000000).fdiv 86400 := by
  rw [day_number, Int.tdiv_eq_ediv h (by decide), Int.fdiv_eq_ediv _ (by decide)]

/-- Closed witness for `day_number_trunc_formula` at `t = -1`. -/
theorem day_number_trunc_formula_witness :
    0 ≤ UnixSecond + (-1 : Int).tdiv 1000000 ∧
    day_number (-1) = (UnixSecond + (-1 : Int).tdiv 1000000).fdiv 86400 :=
  ⟨by decide, day_number_trunc_formula (-1) (by decide)⟩

/-- C4 (counterexample): for the invalid period `p = [NONE, 0)` and
`t = -5`, `p.contains t` is `false` although `p.start ≤ t < p.end` holds,
so the unrestricted equivalence claimed fails. -/
theorem contains_invalid_period_counterexample :
    (utcperiod.mk no_utctime 0).contains (-5) = false ∧
    (utcperiod.mk no_utctime 0).start ≤ -5 ∧
    (-5 : Int) < (utcperiod.mk no_utctime 0).end_ := by
  refine ⟨by decide, by decide, by decide⟩

/-- C4 (amended): for every *valid* period `p` (with its start a
representable int64 value) and every instant `t`,
`p.contains t ⇔ p.start ≤ t < p.end`; for an invalid period `contains`
is constantly false. -/
theorem contains_eq_true_iff (p : utcperiod) (t : Int) :
    p.contains t = true ↔
      (is_valid t = true ∧ p.valid = true ∧ p.start ≤ t ∧ t < p.end_) := by
  unfold utcperiod.contains
  split
  next hcond =>
    simp only [Bool.and_eq_true, decide_eq_true_eq] at hcond ⊢
    exact ⟨fun ⟨h1, h2⟩ => ⟨hcond.1, hcond.2, h1, h2⟩, fun ⟨ha, hb, h1, h2⟩ => ⟨h1, h2⟩⟩
  next hcond =>
    simp only [Bool.and_eq_true, not_and] at hcond
    constructor
    · intro h; cases h
    · rintro ⟨h1, h2, h3⟩
      exact absurd h2 (hcond h1)

theorem contains_iff_of_valid (p : utcperiod) (t : Int)
    (hs : in_int64 p.start) (hv : p.valid = true) :
    p.contains t = true ↔ p.start ≤ t ∧ t < p.end_ := by
  rw [contains_eq_true_iff]
  obtain ⟨⟨h1, h2⟩, h3⟩ :
      ((p.start != no_utctime) = true ∧ (p.end_ != no_utctime) = true) ∧
        p.start ≤ p.end_ := by
    simpa [utcperiod.valid, Bool.and_eq_true, decide_eq_true_eq] using hv
  constructor
  · rintro ⟨-, -, h⟩; exact h
  · intro h
    refine ⟨?_, hv, h⟩
    simp only [is_valid, bne_iff_ne, ne_eq, decide_eq_true_eq]
    simp only [bne_iff_ne, ne_eq] at h1
    rcases hs with ⟨hs1, hs2⟩
    simp only [no_utctime, int64_min] at *
    omega

/-- Closed witness for `contains_iff_of_valid` at `p = [0, 10)`, `t = 3`. -/
theorem contains_iff_of_valid_witness :
    in_int64 (utcperiod.mk 0 10).start ∧ (utcperiod.mk 0 10).valid = true ∧
    ((utcperiod.mk 0 10).contains 3 = true ↔
      (utcperiod.mk 0 10).start ≤ 3 ∧ (3 : Int) < (utcperiod.mk 0 10).end_) :=
  ⟨by decide, by decide, contains_iff_of_valid (utcperiod.mk 0 10) 3 (by decide) (by decide)⟩

theorem valid_eq_true_iff (p : utcperiod) :
    p.valid = true ↔
      ¬p.start = no_utctime ∧ ¬p.end_ = no_utctime ∧ p.start ≤ p.end_ := by
  simp [utcperiod.valid, Bool.and_eq_true, bne_iff_ne, decide_eq_true_eq, and_assoc]

theorem overlaps_eq_true_iff (a p : utcperiod) :
    a.overlaps p = true ↔ p.start < a.end_ ∧ a.start < p.end_ := by
  unfold utcperiod.overlaps
  split <;> rename_i h <;>
    simp only [Bool.or_eq_true, decide_eq_true_eq, ge_iff_le] at h <;>
      simp only [Bool.false_eq_true, false_iff, not_and, not_lt] <;> try simp
  · intro h1
    omega
  · omega

/-- C5 (counterexample): the touching periods `a = [0,5)` and `b = [5,10)`
do not overlap, yet `intersection(a,b)` is the valid degenerate period
`[5,5)`, not the default marker period; so "intersection is valid iff the
periods overlap" fails. -/
theorem intersection_touching_counterexample :
    (utcperiod.mk 0 5).valid = true ∧ (utcperiod.mk 5 10).valid = true ∧
    (utcperiod.mk 0 5).overlaps (utcperiod.mk 5 10) = false ∧
    (intersection (utcperiod.mk 0 5) (utcperiod.mk 5 10)).valid = true ∧
    intersection (utcperiod.mk 0 5) (utcperiod.mk 5 10) ≠ utcperiod.default_ := by
  refine ⟨by decide, by decide, by decide, by decide, by decide⟩

/-- C5 (amended): for valid periods `a`, `b` (with representable starts),
`intersection(a,b)` is valid iff `a` and `b` overlap *or touch*
(`max(starts) = min(ends)`); only when `max(starts) > min(ends)` is the
default marker period `(NONE, NONE)` returned. -/
theorem intersection_valid_iff (a b : utcperiod)
    (has : in_int64 a.start) (hbs : in_int64 b.start)
    (ha : a.valid = true) (hb : b.valid = true) :
    ((intersection a b).valid = true ↔
      (a.overlaps b = true ∨ max a.start b.start = min a.end_ b.end_)) ∧
    (min a.end_ b.end_ < max a.start b.start →
      intersection a b = utcperiod.default_) := by
  obtain ⟨ha1, ha2, ha3⟩ := (valid_eq_true_iff a).mp ha
  obtain ⟨hb1, hb2, hb3⟩ := (valid_eq_true_iff b).mp hb
  simp only [no_utctime, int64_min] at ha1 ha2 hb1 hb2
  simp only [in_int64, int64_min, int64_max] at has hbs
  refine ⟨?_, fun hlt => by rw [intersection, if_neg (not_le.mpr hlt)]⟩
  rcases le_total a.start b.start with h1 | h1 <;>
    rcases le_total a.end_ b.end_ with h2 | h2 <;>
      rw [intersection, overlaps_eq_true_iff] <;>
        (first
          | rw [max_eq_right h1, min_eq_left h2]
          | rw [max_eq_right h1, min_eq_right h2]
          | rw [max_eq_left h1, min_eq_left h2]
          | rw [max_eq_left h1, min_eq_right h2]) <;>
        split <;> rename_i hle <;>
          simp only [valid_eq_true_iff, utcperiod.default_, no_utctime,
            int64_min, eq_self_iff_true, not_true, false_and, false_iff] <;>
            omega

/-- Closed witness for `intersection_valid_iff` at `a = [0,10)`, `b = [5,20)`. -/
theorem intersection_valid_iff_witness :
    in_int64 (utcperiod.mk 0 10).start ∧ in_int64 (utcperiod.mk 5 20).start ∧
    (utcperiod.mk 0 10).valid = true ∧ (utcperiod.mk 5 20).valid = true ∧
    (((intersection (utcperiod.mk 0 10) (utcperiod.mk 5 20)).valid = true ↔
        ((utcperiod.mk 0 10).overlaps (utcperiod.mk 5 20) = true ∨
          max (utcperiod.mk 0 10).start (utcperiod.mk 5 20).start =
            min (utcperiod.mk 0 10).end_ (utcperiod.mk 5 20).end_)) ∧
      (min (utcperiod.mk 0 10).end_ (utcperiod.mk 5 20).end_ <
          max (utcperiod.mk 0 10).start (utcperiod.mk 5 20).start →
        intersection (utcperiod.mk 0 10) (utcperiod.mk 5 20) =
          utcperiod.default_)) :=
  ⟨by decide, by decide, by decide, by decide,
    intersection_valid_iff (utcperiod.mk 0 10) (utcperiod.mk 5 20)
      (by decide) (by decide) (by decide) (by decide)⟩

/-- C1 (code bug): for a DST table starting in 1905, the instant
1900-01-01Z has civil year 1900, which passes the only bounds check in
`dst_offset` (`year - start_year >= dst.size()` is false for the negative
difference `-5`) and then indexes `dst[-5]`: an out-of-range vector access
(modelled as `none`), not the zero offset the claim requires.  A year at
or past the end of the table does fall back to zero (here `t = 0`,
year 1970, table length 1). -/
theorem dst_offset_pre_start_year_oob :
    utc_year t1900 = some 1900 ∧
    tbl1905.dst_offset t1900 = none ∧
    tbl1905.dst_offset 0 = some 0 := by
  refine ⟨by decide, by decide, by decide⟩

/-- C6 (code bug): the fixed-offset constructor formats the whole-hour
offset with printf `"%+02d"`, whose field width 2 already counts the sign
character, so `dt = +5h30m` yields the name `"UTC+5"`, not the claimed
two-digit `"UTC+05"`; the dst table is empty as claimed.  The default
constructor's literal `"UTC+00"` shows the intended two-digit convention. -/
theorem tz_fixed_name_eval :
    (tz_table.of_fixed 19800000000).name = "UTC+5" ∧
    (tz_table.of_fixed 19800000000).name ≠ "UTC+05" ∧
    (tz_table.of_fixed 19800000000).dst = [] ∧
    tz_table.default_.name = "UTC+00" := by
  refine ⟨by decide, by decide, by decide, by decide⟩

/-- C7: negating `utctime::min()` in 64-bit two's-complement arithmetic
wraps back to the minimum, so `min_utctime` equals the smallest
representable microsecond count `-(2^63)` and coincides with `no_utctime`;
`is_valid` is false exactly on that shared bit pattern. -/
theorem sentinels_min_none_shared :
    min_utctime = -(2 ^ 63) ∧ no_utctime = min_utctime ∧
    (∀ t : Int, is_valid t = false ↔ t = min_utctime) := by
  refine ⟨by decide, by decide, fun t => ?_⟩
  have h : no_utctime = min_utctime := by decide
  rw [is_valid, ← h]
  simp [bne_eq_false_iff_eq]

/-- C8 (counterexample): because `min_utctime` and `no_utctime` are the
same value, `utc_year(min_utctime)` throws instead of returning `-9999`
as the claim asserts. -/
theorem utc_year_min_counterexample :
    utc_year min_utctime = none ∧ ¬utc_year min_utctime = some (-9999) := by
  refine ⟨by decide, by decide⟩

/-- C8 (amended): `utc_year` throws exactly on `no_utctime`; since
`min_utctime` is the same value, the `return YEAR_MIN` branch is
unreachable and `utc_year(min_utctime)` also throws; `max_utctime` maps
to 9999 without error. -/
theorem utc_year_error_iff (t : Int) :
    (utc_year t = none ↔ t = no_utctime) ∧ utc_year max_utctime = some 9999 := by
  refine ⟨?_, by decide⟩
  unfold utc_year
  split_ifs with h0 h1 h2 <;> simp [h0]

theorem ymd_is_valid_iff (Y M D h m s : Int) :
    (YMDhms.mk Y M D h m s).is_valid = true ↔
      ((Y = 0 ∧ M = 0 ∧ D = 0 ∧ h = 0 ∧ m = 0 ∧ s = 0) ∨
        ymd_documented_ranges Y M D h m s) := by
  simp only [YMDhms.is_valid, YMDhms.is_null, YMDhms.is_valid_coordinates,
    ymd_documented_ranges, YMDhms.YEAR_MIN, YMDhms.YEAR_MAX, Bool.or_eq_true,
    Bool.and_eq_true, Bool.not_eq_true', beq_iff_eq, decide_eq_true_eq,
    Bool.or_eq_false_iff, decide_eq_false_iff_not]
  omega

theorem ywd_is_valid_iff (Y W wd h m s : Int) :
    (YWdhms.mk Y W wd h m s).is_valid = true ↔
      ((Y = 0 ∧ W = 0 ∧ wd = 0 ∧ h = 0 ∧ m = 0 ∧ s = 0) ∨
        ywd_documented_ranges Y W wd h m s) := by
  simp only [YWdhms.is_valid, YWdhms.is_null, YWdhms.is_valid_coordinates,
    ywd_documented_ranges, YMDhms.YEAR_MIN, YMDhms.YEAR_MAX, Bool.or_eq_true,
    Bool.and_eq_true, Bool.not_eq_true', beq_iff_eq, decide_eq_true_eq,
    Bool.or_eq_false_iff, decide_eq_false_iff_not]
  omega

/-- C9: constructing a `YMDhms` or a `YWdhms` throws exactly when the
coordinates are neither the all-zero null value nor inside the documented
ranges; every null or in-range construction succeeds. -/
theorem coordinate_ctor_error_iff (Y M D h m s W wd : Int) :
    (YMDhms.make Y M D h m s = none ↔
      ¬((Y = 0 ∧ M = 0 ∧ D = 0 ∧ h = 0 ∧ m = 0 ∧ s = 0) ∨
        ymd_documented_ranges Y M D h m s)) ∧
    (YWdhms.make Y W wd h m s = none ↔
      ¬((Y = 0 ∧ W = 0 ∧ wd = 0 ∧ h = 0 ∧ m = 0 ∧ s = 0) ∨
        ywd_documented_ranges Y W wd h m s)) := by
  constructor
  · unfold YMDhms.make
    split_ifs with hv <;> rw [ymd_is_valid_iff] at hv <;> simp [hv]
  · unfold YWdhms.make
    split_ifs with hv <;> rw [ywd_is_valid_iff] at hv <;> simp [hv]

/-- C10: a `tz_table` whose dst vector is empty (as produced by both the
default and the fixed-offset constructors) reports `is_dst() = false` and
returns the `no_utctime` sentinel from `dst_start`/`dst_end` for every
year, with no table access and no error. -/
theorem dst_empty_no_utctime (tbl : tz_table) (hdst : tbl.dst = []) (y d : Int) :
    tbl.is_dst = false ∧
    tbl.dst_start y = some no_utctime ∧ tbl.dst_end y = some no_utctime ∧
    (tz_table.of_fixed d).dst = [] ∧ tz_table.default_.dst = [] := by
  have h : tbl.is_dst = false := by simp [tz_table.is_dst, hdst]
  refine ⟨h, ?_, ?_, rfl, rfl⟩ <;>
    simp [tz_table.dst_start, tz_table.dst_end, h]

/-- Closed witness for `dst_empty_no_utctime` at the default table,
`y = 1999`, `d = 0`. -/
theorem dst_empty_no_utctime_witness :
    tz_table.default_.dst = [] ∧
    (tz_table.default_.is_dst = false ∧
      tz_table.default_.dst_start 1999 = some no_utctime ∧
      tz_table.default_.dst_end 1999 = some no_utctime ∧
      (tz_table.of_fixed 0).dst = [] ∧ tz_table.default_.dst = []) :=
  ⟨rfl, dst_empty_no_utctime tz_table.default_ rfl 1999 0⟩

end Shyft
